import Mathlib

/-!
# Verification of the QLever result-table and literal-expression core

This file is a shallow embedding of four header files of the QLever query
engine (`ResultTable.h`, `LiteralExpression.h`,
`SparqlExpressionValueGetters.h`, `IndexTypes.h`) together with proofs of
the specification's claims about them.

Conventions of the embedding:
* C++ machine integers become `Nat`/`Int`; the 60-bit payload packing of
  the tagged value is made explicit where it matters (`ValueId.getBits`).
* Fallible or partial C++ code (a thrown exception, an `assert`, a null
  pointer dereference, an out-of-range reinterpreting cast) is made
  explicit by `Option`/`Except`: `none` marks undefined behaviour, and
  `Except.error` carries the error kind of the specification.
* The completion latch of `ResultTable` is modelled sequentially: the
  three member functions become state transformers on the table, and the
  observable behaviour of any interleaving is a fold over the operation
  sequence.
-/

namespace QLever

/-- The datatype tags of the bit-packed tagged value.
Modelled from the spec: `Id.h` is not part of the analysed sources; the
spec describes `Id` as an immutable, fixed-size, bit-packed discriminated
union of signed integer, double, boolean, date/large-year, "undefined",
and a vocabulary reference. -/
inductive Datatype where
  | Undefined
  | Int
  | Double
  | Bool
  | Date
  | VocabIndex
  | LocalVocabIndex
  | TextRecordIndex
  deriving DecidableEq, Repr

/-- The tagged value (`Id` / `ValueId`).
Modelled from the spec: a discriminated union, equal iff same tag and same
payload, trivially copyable. The payload of a double is kept as its raw
64-bit pattern (a `Nat`); no claim computes with floating-point values. -/
inductive ValueId where
  | undefined
  | int (n : Int)
  | double (bits : Nat)
  | bool (b : Bool)
  | date (payload : Nat)
  | vocab (n : Nat)
  | localVocab (n : Nat)
  | textRecord (n : Nat)
  deriving DecidableEq, Repr

namespace ValueId

/-- The datatype tag of a tagged value. -/
def getDatatype : ValueId → Datatype
  | .undefined => .Undefined
  | .int _ => .Int
  | .double _ => .Double
  | .bool _ => .Bool
  | .date _ => .Date
  | .vocab _ => .VocabIndex
  | .localVocab _ => .LocalVocabIndex
  | .textRecord _ => .TextRecordIndex

/-- The numeric index of the datatype tag (the 4 tag bits). -/
def tagIndex : ValueId → Nat
  | .undefined => 0
  | .int _ => 1
  | .double _ => 2
  | .bool _ => 3
  | .date _ => 4
  | .vocab _ => 5
  | .localVocab _ => 6
  | .textRecord _ => 7

/-- The 60 payload bits of a tagged value.
Modelled from the spec: the value is bit-packed into a fixed 64-bit word,
4 tag bits above 60 payload bits; a signed integer is stored in two's
complement, hence the `emod`. -/
def payloadBits : ValueId → Nat
  | .undefined => 0
  | .int n => (n % (2 ^ 60 : Int)).toNat
  | .double bits => bits % 2 ^ 60
  | .bool b => if b then 1 else 0
  | .date p => p % 2 ^ 60
  | .vocab n => n % 2 ^ 60
  | .localVocab n => n % 2 ^ 60
  | .textRecord n => n % 2 ^ 60

/-- The full 64-bit pattern of the value (`Id::getBits`), tag bits on top.
Modelled from the spec: bit-packed fixed-size representation. -/
def getBits (v : ValueId) : Nat := v.tagIndex * 2 ^ 60 + v.payloadBits

end ValueId

/-- `IdOrString`: either an interned identifier or an owned string
(values materialized outside the vocabulary). -/
inductive IdOrString where
  | id (v : ValueId)
  | str (s : String)
  deriving DecidableEq, Repr

/-- A SPARQL variable (`::Variable`), identified by its name. -/
structure Variable where
  name : String
  deriving DecidableEq, Repr

/-- `ResultTable::ResultType`: the per-column tag used by downstream
formatting. -/
inductive ResultType where
  | KB
  | VERBATIM
  | TEXT
  deriving DecidableEq, Repr

/-- `ResultTable::Status`: the two-state completion flag. -/
inductive Status where
  | FINISHED
  | OTHER
  deriving DecidableEq, Repr

/-- The contents of the type-erased `_fixedSizeData` pointer: a dense
array of one of the five supported arities. The constructor records the
true element type the pointer points to (`vector<array<Id, k>>`). -/
inductive FixedSizeData where
  | f1 (rows : List ValueId)
  | f2 (rows : List (ValueId × ValueId))
  | f3 (rows : List (ValueId × ValueId × ValueId))
  | f4 (rows : List (ValueId × ValueId × ValueId × ValueId))
  | f5 (rows : List (ValueId × ValueId × ValueId × ValueId × ValueId))
  deriving DecidableEq, Repr

/-- The `ResultTable` class. `fixedSizeData = none` models a null
`_fixedSizeData` pointer. -/
structure ResultTable where
  nofColumns : Nat
  sortedBy : Nat
  varSizeData : List (List ValueId)
  fixedSizeData : Option FixedSizeData
  resultTypes : List ResultType
  status : Status
  deriving DecidableEq, Repr

namespace ResultTable

/-- `ResultTable::finish()`: sets the status to `FINISHED` (and wakes all
waiters of the condition variable; waking is a scheduling effect with no
bearing on the stored state). -/
def finish (t : ResultTable) : ResultTable := { t with status := .FINISHED }

/-- `ResultTable::isFinished()`: non-blocking snapshot of the status. -/
def isFinished (t : ResultTable) : Bool := t.status == .FINISHED

/-- The three operations of the completion latch. `awaitFinished` blocks
until the status is `FINISHED`; like `isFinished` it never writes the
status, so as a state transformer both are the identity. -/
inductive TableOp where
  | finishOp
  | isFinishedOp
  | awaitFinishedOp
  deriving DecidableEq, Repr

/-- The effect of one latch operation on the table state. -/
def applyTableOp (t : ResultTable) : TableOp → ResultTable
  | .finishOp => t.finish
  | .isFinishedOp => t
  | .awaitFinishedOp => t

/-- The table state after a sequence of latch operations. -/
def runOps (t : ResultTable) (ops : List TableOp) : ResultTable :=
  ops.foldl applyTableOp t

/-- The freshly initialised target of the move constructor
`ResultTable(ResultTable&&)`: all members from its initialiser list, and
`_resultTypes` default-constructed (it is absent from the list). -/
def defaultMoveTarget : ResultTable :=
  { nofColumns := 0, sortedBy := 0, varSizeData := [], fixedSizeData := none,
    resultTypes := [], status := .OTHER }

/-- `swap(ResultTable&, ResultTable&)`: exchanges `_status`,
`_nofColumns`, `_sortedBy`, `_varSizeData` and `_fixedSizeData`;
`_resultTypes` is not in the swap and stays with its object. -/
def swapTables (a b : ResultTable) : ResultTable × ResultTable :=
  ({ a with
      status := b.status
      nofColumns := b.nofColumns
      sortedBy := b.sortedBy
      varSizeData := b.varSizeData
      fixedSizeData := b.fixedSizeData },
   { b with
      status := a.status
      nofColumns := a.nofColumns
      sortedBy := a.sortedBy
      varSizeData := a.varSizeData
      fixedSizeData := a.fixedSizeData })

/-- The move constructor `ResultTable(ResultTable&& other)`: initialises
the target to the default state, then swaps it with `other`. Returns
(constructed target, state of `other` afterwards). -/
def moveConstruct (other : ResultTable) : ResultTable × ResultTable :=
  swapTables defaultMoveTarget other

/-- `ResultTable::getDataAsVarSize()`: if `_varSizeData` is nonempty,
return it; otherwise dispatch on `_nofColumns` and expand the fixed-width
storage. `none` models undefined behaviour: a branch for arity `k`
dereferences `_fixedSizeData` as `vector<array<Id, k>>`, which is a null
dereference or a reinterpreting read of the wrong type unless the pointer
actually holds data of arity `k`. When no branch matches, the untouched
empty `res` is returned. -/
def getDataAsVarSize (t : ResultTable) : Option (List (List ValueId)) :=
  if t.varSizeData.length > 0 then
    some t.varSizeData
  else if t.nofColumns = 1 then
    match t.fixedSizeData with
    | some (.f1 rows) => some (rows.map fun r => [r])
    | _ => none
  else if t.nofColumns = 2 then
    match t.fixedSizeData with
    | some (.f2 rows) => some (rows.map fun r => [r.1, r.2])
    | _ => none
  else if t.nofColumns = 3 then
    match t.fixedSizeData with
    | some (.f3 rows) => some (rows.map fun r => [r.1, r.2.1, r.2.2])
    | _ => none
  else if t.nofColumns = 4 then
    match t.fixedSizeData with
    | some (.f4 rows) => some (rows.map fun r => [r.1, r.2.1, r.2.2.1, r.2.2.2])
    | _ => none
  else if t.nofColumns = 5 then
    match t.fixedSizeData with
    | some (.f5 rows) =>
        some (rows.map fun r => [r.1, r.2.1, r.2.2.1, r.2.2.2.1, r.2.2.2.2])
    | _ => none
  else
    some []

/-- `ResultTable::getResultType(col)`: the declared per-column type, or
the knowledge-base default when out of range. -/
def getResultType (t : ResultTable) (col : Nat) : ResultType :=
  if h : col < t.resultTypes.length then t.resultTypes.get ⟨col, h⟩
  else .KB

end ResultTable

/-- The arity stored in a `FixedSizeData` value (the true element type of
the pointed-to vector). -/
def FixedSizeData.arity : FixedSizeData → Nat
  | .f1 _ => 1
  | .f2 _ => 2
  | .f3 _ => 3
  | .f4 _ => 4
  | .f5 _ => 5

/-- Specification-side definition, following the spec's words for the
refinement claim: the logical rows of a fixed-width table are its tuples
read out in order, each as the sequence of its `arity` entries. Stated
independently of `getDataAsVarSize` so that the two can be compared. -/
def FixedSizeData.logicalRows : FixedSizeData → List (List ValueId)
  | .f1 rows => rows.map fun r => [r]
  | .f2 rows => rows.map fun r => [r.1, r.2]
  | .f3 rows => rows.map fun r => [r.1, r.2.1, r.2.2]
  | .f4 rows => rows.map fun r => [r.1, r.2.1, r.2.2.1, r.2.2.2]
  | .f5 rows => rows.map fun r => [r.1, r.2.1, r.2.2.1, r.2.2.2.1, r.2.2.2.2]

/-- The error kinds of the specification's error-handling design. C++
`AD_THROW` calls, the `assert` in the grouped-variable path, and
`throwIfCancelled` are modelled as `Except.error` of the matching kind.
`nonTermination` marks exhaustion of the recursion fuel of
`evaluateIfVariable`; the C++ recursion is bounded because alias chains
are acyclic by upstream construction. -/
inductive EvalError where
  | variableNotBound
  | notCacheable
  | regexCompilationFailed
  | cancelled
  | invariantViolation
  | nonTermination
  deriving DecidableEq, Repr

/-- The result of evaluating a leaf expression: an unresolved variable
(returned to the caller for generic per-row lookup), a single tagged
value, an `IdOrString`, or a materialized vector of values. -/
inductive ExpressionResult where
  | var (v : Variable)
  | id (v : ValueId)
  | idOrString (v : IdOrString)
  | idVector (vs : List ValueId)
  deriving DecidableEq, Repr

/-- Lookup in an association list; models the `contains`/`at` pattern of
the C++ hash maps. -/
def lookupAssoc {α β : Type} [BEq α] (m : List (α × β)) (k : α) : Option β :=
  (m.find? fun p => p.1 == k).map Prod.snd

/-- The evaluation context: a view over a row range of one table plus the
variable maps, grouping metadata, vocabulary access and the cancellation
signal. The accessors `getResultFromPreviousAggregate` and
`getColumnIndexForVariable` and the `IdTable`, vocabulary and
cancellation-handle types are declared outside the analysed sources;
modelled from the spec as plain lookups / a flag. -/
structure EvaluationContext where
  inputTable : List (List ValueId)
  beginIndex : Nat
  endIndex : Nat
  groupedVariables : List Variable
  previousResults : List (Variable × ExpressionResult)
  variableColumns : List (Variable × Nat)
  vocab : List (String × ValueId)
  idStringMap : List (ValueId × String)
  cancelled : Bool

/-- `IdTable::at(row, col)`: read one entry of the input table. -/
def tableAt (table : List (List ValueId)) (i j : Nat) : ValueId :=
  (table.getD i []).getD j .undefined

/-- `context->getResultFromPreviousAggregate(variable)`.
Modelled from the spec: the context's lookup from a variable to the value
computed for it by an earlier alias in the same SELECT clause. -/
def EvaluationContext.getResultFromPreviousAggregate
    (ctx : EvaluationContext) (v : Variable) : Option ExpressionResult :=
  lookupAssoc ctx.previousResults v

/-- `context->getColumnIndexForVariable(variable)`.
Modelled from the spec: the context's mapping from a variable to its
column index in the input table. -/
def EvaluationContext.getColumnIndexForVariable
    (ctx : EvaluationContext) (v : Variable) : Option Nat :=
  lookupAssoc ctx.variableColumns v

/-- The `std::ranges::all_of` check of the grouped-variable branch: every
row of `[beginIndex, endIndex)` holds `c` in the given column. -/
def groupedRangeAllEqual (ctx : EvaluationContext) (column : Nat)
    (c : ValueId) : Bool :=
  (List.range' ctx.beginIndex (ctx.endIndex - ctx.beginIndex)).all
    fun i => tableAt ctx.inputTable i column == c

/-- Lines 153-168 of `LiteralExpression.h`: the part of
`evaluateIfVariable` after the previous-aggregate branch. A grouped
variable outside an aggregate is read once at the start of the row range
and returned as a constant, guarded by the `assert` that the whole range
holds that value (`assert` failure is the fatal `invariantViolation`);
otherwise the variable itself is returned unresolved. A variable missing
from the column map is the spec's `variableNotBound` error. -/
def evaluateGroupedOrVariable (ctx : EvaluationContext)
    (isInsideAggregate : Bool) (w : Variable) :
    Except EvalError ExpressionResult :=
  if ctx.groupedVariables.contains w && !isInsideAggregate then
    match ctx.getColumnIndexForVariable w with
    | none => .error .variableNotBound
    | some column =>
      let constantValue := tableAt ctx.inputTable ctx.beginIndex column
      if groupedRangeAllEqual ctx column constantValue then
        .ok (.id constantValue)
      else
        .error .invariantViolation
  else
    .ok (.var w)

/-- `LiteralExpression::evaluateIfVariable`: if the variable has a result
from a previous alias in the same SELECT clause and is not grouped,
follow the alias chain (recursing on a variable result, returning any
other result directly); otherwise fall through to the grouped-variable /
unresolved-variable logic. The fuel bounds the recursion; the C++
recursion terminates because alias chains are acyclic. -/
def evaluateIfVariable (ctx : EvaluationContext) (isInsideAggregate : Bool) :
    Nat → Variable → Except EvalError ExpressionResult
  | 0, _ => .error .nonTermination
  | fuel + 1, w =>
    match ctx.getResultFromPreviousAggregate w with
    | some resultFromSameRow =>
      if ctx.groupedVariables.contains w then
        evaluateGroupedOrVariable ctx isInsideAggregate w
      else
        match resultFromSameRow with
        | .var v => evaluateIfVariable ctx isInsideAggregate fuel v
        | r => .ok r
    | none => evaluateGroupedOrVariable ctx isInsideAggregate w

/-- The value held by a `LiteralExpression` node, one constructor per
template instantiation: `VariableExpression`, `IriExpression` (a plain
string), `StringLiteralExpression` (a `TripleComponent::Literal`, kept as
its raw content), `IdExpression`, `VectorIdExpression`. -/
inductive LiteralExprValue where
  | variable (v : Variable)
  | str (s : String)
  | literal (rawContent : String)
  | valueId (v : ValueId)
  | idVector (vs : List ValueId)
  deriving DecidableEq, Repr

/-- The `getIdOrString` lambda inside `LiteralExpression::evaluate`: if
the cache slot holds a value, return it (no cancellation check on this
path); otherwise look the string up in the vocabulary, build the
`IdOrString` (the identifier if found, else the raw string), install it
into the cache slot by atomic exchange, then check for cancellation, and
return the freshly computed value. The returned pair is (evaluation
outcome, cache slot afterwards); the exchange precedes the cancellation
check, so the slot is populated even when `cancelled` is raised. -/
def getIdOrString (ctx : EvaluationContext) (cache : Option IdOrString)
    (s : String) : Except EvalError ExpressionResult × Option IdOrString :=
  match cache with
  | some cached => (.ok (.idOrString cached), some cached)
  | none =>
    let result : IdOrString :=
      match lookupAssoc ctx.vocab s with
      | some i => .id i
      | none => .str s
    ((if ctx.cancelled then .error .cancelled else .ok (.idOrString result)),
     some result)

/-- `LiteralExpression::evaluate`: dispatch on the template parameter.
Literal and string constants go through `getIdOrString` (on the raw
content / the string); a variable is resolved by `evaluateIfVariable`
(the cache slot is untouched); the materialized vector is cloned; a bare
`ValueId` is returned unchanged. -/
def LiteralExpression.evaluate (ctx : EvaluationContext)
    (cache : Option IdOrString) (isInsideAggregate : Bool) (fuel : Nat) :
    LiteralExprValue → Except EvalError ExpressionResult × Option IdOrString
  | .literal raw => getIdOrString ctx cache raw
  | .str s => getIdOrString ctx cache s
  | .variable v => (evaluateIfVariable ctx isInsideAggregate fuel v, cache)
  | .idVector vs => (.ok (.idVector vs), cache)
  | .valueId v => (.ok (.id v), cache)

/-- `LiteralExpression::getCacheKey`: a variable renders its column index
(`AD_THROW` when absent from the map, the spec's `variableNotBound`); a
plain string is its own key; a `ValueId` renders its bit pattern; a
literal renders its raw content; the materialized-vector variant always
throws (the spec's `notCacheable`). -/
def LiteralExpression.getCacheKey (varColMap : List (Variable × Nat)) :
    LiteralExprValue → Except EvalError String
  | .variable v =>
    match lookupAssoc varColMap v with
    | none => .error .variableNotBound
    | some col => .ok ("#column_" ++ toString col ++ "#")
  | .str s => .ok s
  | .valueId v => .ok ("#valueId " ++ toString v.getBits ++ "#")
  | .literal raw => .ok ("#literal: " ++ raw)
  | .idVector _ => .error .notCacheable

/-- `LiteralExpression::isConstantExpression`: every variant except the
variable one. -/
def LiteralExpression.isConstantExpression : LiteralExprValue → Bool
  | .variable _ => false
  | _ => true

/-- The three input shapes every value getter accepts: a tagged value, a
plain string, or the `IdOrString` sum (which dispatches to the matching
single-shape handler via `std::visit`). -/
inductive SingleValue where
  | id (v : ValueId)
  | str (s : String)
  | idOrStr (v : IdOrString)
  deriving DecidableEq, Repr

/-- `StringValueGetter::operator()(string)`: strip the surrounding quote
characters when the string is quote-delimited, otherwise return it
unchanged; a plain string is always string-convertible. -/
def StringValueGetter.onString (s : String) : Option String :=
  if 2 ≤ s.length ∧ s.startsWith "\"" ∧ s.endsWith "\"" then
    some ((s.drop 1).dropRight 1)
  else
    some s

/-- `StringValueGetter::operator()(ValueId)`.
Modelled from the spec: defined in a source file not among the analysed
headers; per the spec, an identifier resolves to its string form via the
vocabulary, or to none if it is not string-convertible. -/
def StringValueGetter.onId (ctx : EvaluationContext) (v : ValueId) :
    Option String :=
  lookupAssoc ctx.idStringMap v

/-- `StringValueGetter` on any of the three input shapes (the
`IdOrString` overload dispatches via `std::visit`). -/
def StringValueGetter.getString (ctx : EvaluationContext) :
    SingleValue → Option String
  | .id v => StringValueGetter.onId ctx v
  | .str s => StringValueGetter.onString s
  | .idOrStr (.id v) => StringValueGetter.onId ctx v
  | .idOrStr (.str s) => StringValueGetter.onString s

/-- `EffectiveBooleanValueGetter::Result`. -/
inductive EBVResult where
  | False
  | True
  | Undefined
  deriving DecidableEq, Repr

/-- `EffectiveBooleanValueGetter::operator()(string)`: nonempty strings
are true, the empty string is false. -/
def EffectiveBooleanValueGetter.onString (s : String) : EBVResult :=
  if s.isEmpty then .False else .True

/-- `EffectiveBooleanValueGetter::operator()(ValueId)`.
Modelled from the spec: defined in a source file not among the analysed
headers; per the spec, identifiers convert per their datatype — numeric
zero or boolean false give False, nonzero or true give True, undefined or
non-boolean-convertible give Undefined. The two IEEE zero bit patterns of a
double are `0` and `2 ^ 63`. -/
def EffectiveBooleanValueGetter.onId : ValueId → EBVResult
  | .int n => if n = 0 then .False else .True
  | .double bits => if bits = 0 ∨ bits = 2 ^ 63 then .False else .True
  | .bool b => if b then .True else .False
  | _ => .Undefined

/-- `EffectiveBooleanValueGetter` on any of the three input shapes. -/
def EffectiveBooleanValueGetter.getEBV (_ctx : EvaluationContext) :
    SingleValue → EBVResult
  | .id v => EffectiveBooleanValueGetter.onId v
  | .str s => EffectiveBooleanValueGetter.onString s
  | .idOrStr (.id v) => EffectiveBooleanValueGetter.onId v
  | .idOrStr (.str s) => EffectiveBooleanValueGetter.onString s

/-- A compiled `re2::RE2` object as the getter constructs it
(`RE2(pattern, RE2::Quiet)`): construction never throws; the object
records the pattern and whether compilation succeeded, and the caller
observes a failed compilation through the object. Models the external
regex engine. -/
structure RE2 where
  pattern : String
  ok : Bool
  deriving DecidableEq, Repr

/-- `RegexValueGetter::operator()`: convert the input via
`StringValueGetter`; return null (`none`) when that yields no string,
otherwise hand the string to the regex engine's constructor and return
whatever object it produces, unchanged. Parametric in the engine's
`compile` function: the getter cannot inspect, catch or replace the
compilation outcome, so a failed compilation propagates to the caller. -/
def regexValueGetter {α : Type} (compile : String → α)
    (ctx : EvaluationContext) (input : SingleValue) : Option α :=
  match StringValueGetter.getString ctx input with
  | none => none
  | some s => some (compile s)

/-! ## Helper lemmas -/

/-- A finished table stays finished under any sequence of latch
operations: none of the three operations ever writes anything but
`FINISHED`. -/
theorem runOps_status_preserved (ops : List ResultTable.TableOp) :
    ∀ t : ResultTable, t.status = Status.FINISHED →
      (ResultTable.runOps t ops).status = Status.FINISHED := by
  induction ops with
  | nil => intro t h; exact h
  | cons op rest ih =>
    intro t h
    have hstep : ResultTable.runOps t (op :: rest) =
        ResultTable.runOps (ResultTable.applyTableOp t op) rest := rfl
    rw [hstep]
    cases op with
    | finishOp => exact ih _ rfl
    | isFinishedOp => exact ih _ h
    | awaitFinishedOp => exact ih _ h

/-- A nonempty `_varSizeData` is returned directly. -/
theorem getDataAsVarSize_varsize_nonempty (t : ResultTable)
    (h : t.varSizeData ≠ []) :
    ResultTable.getDataAsVarSize t = some t.varSizeData := by
  have hlen : t.varSizeData.length > 0 := List.length_pos.mpr h
  simp [ResultTable.getDataAsVarSize, hlen]

/-- A fixed-width table whose column count matches the arity of its
stored data expands to exactly its logical rows. -/
theorem getDataAsVarSize_fixed (t : ResultTable) (fd : FixedSizeData)
    (hvar : t.varSizeData = []) (hfd : t.fixedSizeData = some fd)
    (hn : t.nofColumns = fd.arity) :
    ResultTable.getDataAsVarSize t = some fd.logicalRows := by
  cases fd <;>
    simp [ResultTable.getDataAsVarSize, hvar, hfd, hn, FixedSizeData.arity,
      FixedSizeData.logicalRows]

/-- With empty `_varSizeData` and a column count outside 1..5, no branch
of the dispatch fires and the untouched empty result is returned. -/
theorem getDataAsVarSize_arity_out_of_range (t : ResultTable)
    (hvar : t.varSizeData = [])
    (harity : ¬(1 ≤ t.nofColumns ∧ t.nofColumns ≤ 5)) :
    ResultTable.getDataAsVarSize t = some [] := by
  have h1 : t.nofColumns ≠ 1 := fun h => harity (by omega)
  have h2 : t.nofColumns ≠ 2 := fun h => harity (by omega)
  have h3 : t.nofColumns ≠ 3 := fun h => harity (by omega)
  have h4 : t.nofColumns ≠ 4 := fun h => harity (by omega)
  have h5 : t.nofColumns ≠ 5 := fun h => harity (by omega)
  simp [ResultTable.getDataAsVarSize, hvar, h1, h2, h3, h4, h5]

/-! ## Concrete instances used by counterexamples and witnesses -/

/-- A fixed-width table reporting the unsupported column arity 6; its
data pointer is non-null. -/
def arity6Table : ResultTable :=
  { nofColumns := 6, sortedBy := 0, varSizeData := [],
    fixedSizeData :=
      some (.f5 [(.int 1, .int 2, .int 3, .int 4, .int 5)]),
    resultTypes := [], status := .OTHER }

/-! ## Claims -/

/-- C1: the completion status of a `ResultTable` is a monotonic two-state
latch: after `finish()`, `isFinished()` is `true` for every subsequent
call under any sequence of latch operations; a second `finish()` leaves
the table in exactly the same (finished) state with no error; and the
status never reverts from `FINISHED` under
`finish`/`isFinished`/`awaitFinished`. -/
theorem C1_completion_latch :
    (∀ (t : ResultTable) (ops : List ResultTable.TableOp),
        (ResultTable.runOps t.finish ops).isFinished = true) ∧
    (∀ t : ResultTable, t.finish.finish = t.finish) ∧
    (∀ (t : ResultTable) (ops : List ResultTable.TableOp),
        (ResultTable.runOps t.finish ops).status = Status.FINISHED) := by
  refine ⟨?_, ?_, ?_⟩
  · intro t ops
    have h := runOps_status_preserved ops t.finish rfl
    simp [ResultTable.isFinished, h]
  · intro t
    rfl
  · intro t ops
    exact runOps_status_preserved ops t.finish rfl

/-- C9: move-construction transfers the row storage and the completion
status: the target's `isFinished()` equals what the source reported
before the move, the target receives both storage members, and the
moved-from source is left with empty storage and reports
`isFinished() == false`; in particular moving from a finished table
leaves that source reporting unfinished. -/
theorem C9_move_transfers_storage_and_status (other : ResultTable) :
    ((ResultTable.moveConstruct other).1.isFinished = other.isFinished) ∧
    ((ResultTable.moveConstruct other).1.varSizeData = other.varSizeData) ∧
    ((ResultTable.moveConstruct other).1.fixedSizeData
        = other.fixedSizeData) ∧
    ((ResultTable.moveConstruct other).2.isFinished = false) ∧
    ((ResultTable.moveConstruct other).2.varSizeData = []) ∧
    ((ResultTable.moveConstruct other).2.fixedSizeData = none) ∧
    ((ResultTable.moveConstruct other.finish).2.isFinished = false) :=
  ⟨rfl, rfl, rfl, rfl, rfl, rfl, rfl⟩

/-- C4 counterexample: materializing a fixed-width table of arity 6 via
`getDataAsVarSize` is a normal return of an empty row sequence, not a
fatal failure (`none` models the fatal/undefined outcome in this
embedding). -/
theorem C4_counterexample :
    ResultTable.getDataAsVarSize arity6Table = some [] ∧
    ResultTable.getDataAsVarSize arity6Table ≠ none := by
  constructor
  · rfl
  · intro h
    simp [ResultTable.getDataAsVarSize, arity6Table] at h

/-- C4 amended: for every fixed-width `ResultTable` whose column arity
lies outside 1..5, `getDataAsVarSize` silently returns an empty row
sequence as a normal return (all stored data is dropped); no failure or
assertion is raised. -/
theorem C4_amended (t : ResultTable) (hvar : t.varSizeData = [])
    (harity : ¬(1 ≤ t.nofColumns ∧ t.nofColumns ≤ 5)) :
    ResultTable.getDataAsVarSize t = some [] :=
  getDataAsVarSize_arity_out_of_range t hvar harity

/-- C4 witness: the amended statement evaluated on the concrete arity-6
table. -/
theorem C4_amended_witness :
    ResultTable.getDataAsVarSize arity6Table = some [] :=
  C4_amended arity6Table rfl (by decide)

/-- C3: for every supported fixed-width arity (1..5) and every
variable-width table holding the same logical rows, `getDataAsVarSize`
returns identical row contents from both representations; and a table
whose `_varSizeData` is nonempty returns that data directly. The
variable-width side is any table without fixed-size storage that either
is nonempty or carries a column count outside the fixed arities (an empty
variable-width table labelled with a fixed arity would dereference the
null data pointer, a state the data model never constructs). -/
theorem C3_fixed_and_variable_width_agree (fd : FixedSizeData)
    (t u : ResultTable)
    (htvar : t.varSizeData = []) (htfd : t.fixedSizeData = some fd)
    (htn : t.nofColumns = fd.arity)
    (huvar : u.varSizeData = fd.logicalRows) (_hufd : u.fixedSizeData = none)
    (hu : u.varSizeData ≠ [] ∨ ¬(1 ≤ u.nofColumns ∧ u.nofColumns ≤ 5)) :
    (ResultTable.getDataAsVarSize t = some fd.logicalRows ∧
      ResultTable.getDataAsVarSize u = some fd.logicalRows) ∧
    (∀ w : ResultTable, w.varSizeData ≠ [] →
      ResultTable.getDataAsVarSize w = some w.varSizeData) := by
  refine ⟨⟨getDataAsVarSize_fixed t fd htvar htfd htn, ?_⟩,
    fun w hw => getDataAsVarSize_varsize_nonempty w hw⟩
  rcases hu with hne | hout
  · rw [getDataAsVarSize_varsize_nonempty u hne, huvar]
  · by_cases hemp : u.varSizeData = []
    · rw [getDataAsVarSize_arity_out_of_range u hemp hout]
      rw [hemp] at huvar
      rw [← huvar]
    · rw [getDataAsVarSize_varsize_nonempty u hemp, huvar]

/-- A concrete two-column fixed-width table used by the C3 witness. -/
def fixed2Data : FixedSizeData :=
  .f2 [(.int 1, .int 2), (.int 3, .int 4)]

/-- The fixed-width representation of the witness rows. -/
def fixed2Table : ResultTable :=
  { nofColumns := 2, sortedBy := 0, varSizeData := [],
    fixedSizeData := some fixed2Data, resultTypes := [], status := .OTHER }

/-- The variable-width representation of the same witness rows. -/
def var2Table : ResultTable :=
  { nofColumns := 2, sortedBy := 0,
    varSizeData := [[.int 1, .int 2], [.int 3, .int 4]],
    fixedSizeData := none, resultTypes := [], status := .OTHER }

/-- C3 witness: both representations of the same two rows materialize to
the identical row contents. -/
theorem C3_witness :
    ResultTable.getDataAsVarSize fixed2Table =
      some [[.int 1, .int 2], [.int 3, .int 4]] ∧
    ResultTable.getDataAsVarSize var2Table =
      some [[.int 1, .int 2], [.int 3, .int 4]] := by
  have h := C3_fixed_and_variable_width_agree fixed2Data fixed2Table var2Table
    rfl rfl rfl rfl rfl (Or.inl (by decide))
  exact ⟨h.1.1, h.1.2⟩

/-- C7: `getCacheKey` errs with the variable-not-bound failure for every
variable expression whose variable is absent from the column map, errs
with the not-cacheable failure for every materialized-vector expression,
and returns a key without error for the other variants: the string itself
for a string constant, the bit-pattern token for an identifier constant,
the raw-content token for a literal constant. -/
theorem C7_getCacheKey_errors_and_keys :
    (∀ (m : List (Variable × Nat)) (v : Variable),
        lookupAssoc m v = none →
        LiteralExpression.getCacheKey m (.variable v)
          = .error .variableNotBound) ∧
    (∀ (m : List (Variable × Nat)) (vs : List ValueId),
        LiteralExpression.getCacheKey m (.idVector vs)
          = .error .notCacheable) ∧
    (∀ (m : List (Variable × Nat)) (s : String),
        LiteralExpression.getCacheKey m (.str s) = .ok s) ∧
    (∀ (m : List (Variable × Nat)) (v : ValueId),
        LiteralExpression.getCacheKey m (.valueId v)
          = .ok ("#valueId " ++ toString v.getBits ++ "#")) ∧
    (∀ (m : List (Variable × Nat)) (raw : String),
        LiteralExpression.getCacheKey m (.literal raw)
          = .ok ("#literal: " ++ raw)) := by
  refine ⟨?_, fun m vs => rfl, fun m s => rfl, fun m v => rfl,
    fun m raw => rfl⟩
  intro m v h
  simp [LiteralExpression.getCacheKey, h]

/-- C7 witness: the variable-not-bound error on the empty column map. -/
theorem C7_witness :
    LiteralExpression.getCacheKey [] (.variable ⟨"x"⟩)
      = .error .variableNotBound :=
  C7_getCacheKey_errors_and_keys.1 [] ⟨"x"⟩ rfl

/-- C8: the effective-boolean-value getter maps the empty string to
False and every nonempty string to True; on identifiers it maps the
numeric identifier 0 to False, the numeric identifier 3 to True, and the
undefined identifier to Undefined. -/
theorem C8_effective_boolean_value :
    (EffectiveBooleanValueGetter.onString "" = .False) ∧
    (∀ s : String, s ≠ "" →
        EffectiveBooleanValueGetter.onString s = .True) ∧
    (EffectiveBooleanValueGetter.onId (.int 0) = .False) ∧
    (EffectiveBooleanValueGetter.onId (.int 3) = .True) ∧
    (EffectiveBooleanValueGetter.onId .undefined = .Undefined) := by
  refine ⟨rfl, ?_, rfl, rfl, rfl⟩
  intro s hs
  have hempty : s.isEmpty = false := by
    rcases h : s.isEmpty with _ | _
    · rfl
    · exact absurd ((String.isEmpty_iff s).mp h) hs
  simp [EffectiveBooleanValueGetter.onString, hempty]

/-- C8 witness: the nonempty-string case evaluated at a concrete
string. -/
theorem C8_witness :
    EffectiveBooleanValueGetter.onString "abc" = .True :=
  C8_effective_boolean_value.2.1 "abc" (by decide)

/-- An evaluation context with empty table, maps and vocabulary and an
untriggered cancellation signal. -/
def emptyContext : EvaluationContext :=
  { inputTable := [], beginIndex := 0, endIndex := 0, groupedVariables := [],
    previousResults := [], variableColumns := [], vocab := [],
    idStringMap := [], cancelled := false }

/-- C6: the regex getter returns no expression exactly when its input is
not string-convertible via the string getter; and whenever the string
getter yields a string, the getter returns exactly what the underlying
engine's compiler produces for it — unchanged, for every possible
engine — so a failed compilation reaches the caller instead of becoming
a silent none. -/
theorem C6_regex_getter_propagation :
    (∀ (α : Type) (compile : String → α) (ctx : EvaluationContext)
        (input : SingleValue),
        (regexValueGetter compile ctx input = none ↔
          StringValueGetter.getString ctx input = none)) ∧
    (∀ (α : Type) (compile : String → α) (ctx : EvaluationContext)
        (input : SingleValue) (s : String),
        StringValueGetter.getString ctx input = some s →
        regexValueGetter compile ctx input = some (compile s)) := by
  constructor
  · intro α compile ctx input
    cases h : StringValueGetter.getString ctx input <;>
      simp [regexValueGetter, h]
  · intro α compile ctx input s h
    simp [regexValueGetter, h]

/-- C6 witness: with an engine whose compilation of the malformed pattern
fails (`ok = false`), the getter still returns the failed object rather
than none; and on a non-string-convertible identifier it returns none. -/
theorem C6_witness :
    regexValueGetter (fun s => RE2.mk s false) emptyContext (.str "(")
      = some (RE2.mk "(" false) ∧
    regexValueGetter (fun s => RE2.mk s false) emptyContext
      (.id (.int 7)) = none := by
  constructor
  · exact C6_regex_getter_propagation.2 RE2 (fun s => RE2.mk s false)
      emptyContext (.str "(") "(" rfl
  · exact (C6_regex_getter_propagation.1 RE2 (fun s => RE2.mk s false)
      emptyContext (.id (.int 7))).mpr rfl

/-- The executable `all_of` check holds exactly when every row of the
half-open range `[beginIndex, endIndex)` carries `c` in the column. -/
theorem groupedRangeAllEqual_iff (ctx : EvaluationContext) (col : Nat)
    (c : ValueId) :
    groupedRangeAllEqual ctx col c = true ↔
      ∀ i, ctx.beginIndex ≤ i → i < ctx.endIndex →
        tableAt ctx.inputTable i col = c := by
  simp only [groupedRangeAllEqual, List.all_eq_true, List.mem_range'_1,
    beq_iff_eq]
  constructor
  · intro h i h1 h2
    exact h i ⟨h1, by omega⟩
  · intro h i hi
    exact h i hi.1 (by omega)

/-- C2: resolving a grouped variable outside an aggregate reads the
single value at the start of the context's row range and returns it as a
scalar constant; if any row of `[beginIndex, endIndex)` holds a different
value in the grouped column, resolution instead fails with the fatal
invariant violation (the `assert` of the source). -/
theorem C2_grouped_constant_folding (ctx : EvaluationContext)
    (v : Variable) (col : Nat) (fuel : Nat)
    (hgrouped : ctx.groupedVariables.contains v = true)
    (hcol : ctx.getColumnIndexForVariable v = some col) :
    (evaluateIfVariable ctx false (fuel + 1) v =
        if groupedRangeAllEqual ctx col
            (tableAt ctx.inputTable ctx.beginIndex col)
        then .ok (.id (tableAt ctx.inputTable ctx.beginIndex col))
        else .error .invariantViolation) ∧
    ((∀ i, ctx.beginIndex ≤ i → i < ctx.endIndex →
        tableAt ctx.inputTable i col =
          tableAt ctx.inputTable ctx.beginIndex col) →
      evaluateIfVariable ctx false (fuel + 1) v =
        .ok (.id (tableAt ctx.inputTable ctx.beginIndex col))) ∧
    ((∃ i, ctx.beginIndex ≤ i ∧ i < ctx.endIndex ∧
        tableAt ctx.inputTable i col ≠
          tableAt ctx.inputTable ctx.beginIndex col) →
      evaluateIfVariable ctx false (fuel + 1) v =
        .error .invariantViolation) := by
  have hmem : v ∈ ctx.groupedVariables := by simpa using hgrouped
  have hmain : evaluateIfVariable ctx false (fuel + 1) v =
      evaluateGroupedOrVariable ctx false v := by
    cases hprev : ctx.getResultFromPreviousAggregate v <;>
      simp [evaluateIfVariable, hprev, hgrouped, hmem]
  have hbranch : evaluateIfVariable ctx false (fuel + 1) v =
      if groupedRangeAllEqual ctx col
          (tableAt ctx.inputTable ctx.beginIndex col)
      then .ok (.id (tableAt ctx.inputTable ctx.beginIndex col))
      else .error .invariantViolation := by
    rw [hmain]
    simp [evaluateGroupedOrVariable, hgrouped, hcol, hmem]
  refine ⟨hbranch, ?_, ?_⟩
  · intro hall
    rw [hbranch, if_pos ((groupedRangeAllEqual_iff ctx col _).mpr hall)]
  · rintro ⟨i, h1, h2, hne⟩
    have hfalse : groupedRangeAllEqual ctx col
        (tableAt ctx.inputTable ctx.beginIndex col) = false := by
      rcases h : groupedRangeAllEqual ctx col
          (tableAt ctx.inputTable ctx.beginIndex col) with _ | _
      · rfl
      · exact absurd ((groupedRangeAllEqual_iff ctx col _).mp h i h1 h2) hne
    rw [hbranch, if_neg (by simp [hfalse])]

/-- The grouped variable of the C2 witness. -/
def groupedVar : Variable := ⟨"g"⟩

/-- A context of four rows whose grouped column 2 holds 7 in every
row. -/
def groupedOkContext : EvaluationContext :=
  { inputTable := [[.int 1, .int 0, .int 7], [.int 2, .int 0, .int 7],
      [.int 3, .int 0, .int 7], [.int 4, .int 0, .int 7]],
    beginIndex := 0, endIndex := 4, groupedVariables := [groupedVar],
    previousResults := [], variableColumns := [(groupedVar, 2)],
    vocab := [], idStringMap := [], cancelled := false }

/-- The same context except that the third row holds 8 in the grouped
column. -/
def groupedBadContext : EvaluationContext :=
  { inputTable := [[.int 1, .int 0, .int 7], [.int 2, .int 0, .int 7],
      [.int 3, .int 0, .int 8], [.int 4, .int 0, .int 7]],
    beginIndex := 0, endIndex := 4, groupedVariables := [groupedVar],
    previousResults := [], variableColumns := [(groupedVar, 2)],
    vocab := [], idStringMap := [], cancelled := false }

/-- C2 witness: over the uniform range the resolution yields the scalar
7; with one deviating row it fails with the invariant violation. -/
theorem C2_witness :
    evaluateIfVariable groupedOkContext false 1 groupedVar =
      .ok (.id (.int 7)) ∧
    evaluateIfVariable groupedBadContext false 1 groupedVar =
      .error .invariantViolation := by
  constructor
  · have h := (C2_grouped_constant_folding groupedOkContext groupedVar 2 0
      rfl rfl).1
    rw [h]; rfl
  · have h := (C2_grouped_constant_folding groupedBadContext groupedVar 2 0
      rfl rfl).1
    rw [h]; rfl

/-- The alias variables of the C5 instance. -/
def aliasY : Variable := ⟨"y"⟩

/-- The intermediate alias variable of the C5 instance. -/
def aliasX : Variable := ⟨"x"⟩

/-- A projection context where `?y` was computed as an alias of `?x` and
`?x` as an alias of the literal constant 5. -/
def aliasChainContext : EvaluationContext :=
  { inputTable := [], beginIndex := 0, endIndex := 0, groupedVariables := [],
    previousResults := [(aliasY, .var aliasX), (aliasX, .id (.int 5))],
    variableColumns := [], vocab := [], idStringMap := [],
    cancelled := false }

/-- C5: for a variable bound by an earlier expression of the same SELECT
clause and not currently grouped, resolution recurses when the earlier
result is itself a variable and returns the earlier computed value
directly otherwise; in particular, with `?y` an alias of `?x` and `?x` an
alias of the literal constant 5, resolving `?y` yields 5. -/
theorem C5_alias_chain_resolution :
    (∀ (ctx : EvaluationContext) (agg : Bool) (fuel : Nat)
        (v w : Variable),
        ctx.getResultFromPreviousAggregate v = some (.var w) →
        ctx.groupedVariables.contains v = false →
        evaluateIfVariable ctx agg (fuel + 1) v =
          evaluateIfVariable ctx agg fuel w) ∧
    (∀ (ctx : EvaluationContext) (agg : Bool) (fuel : Nat) (v : Variable)
        (r : ExpressionResult),
        ctx.getResultFromPreviousAggregate v = some r →
        ctx.groupedVariables.contains v = false →
        (∀ w, r ≠ .var w) →
        evaluateIfVariable ctx agg (fuel + 1) v = .ok r) ∧
    (evaluateIfVariable aliasChainContext false 2 aliasY =
      .ok (.id (.int 5))) := by
  refine ⟨?_, ?_, rfl⟩
  · intro ctx agg fuel v w hprev hgrouped
    have hnmem : v ∉ ctx.groupedVariables := by simpa using hgrouped
    simp [evaluateIfVariable, hprev, hgrouped, hnmem]
  · intro ctx agg fuel v r hprev hgrouped hnotvar
    have hnmem : v ∉ ctx.groupedVariables := by simpa using hgrouped
    cases r with
    | var w => exact absurd rfl (hnotvar w)
    | id x => simp [evaluateIfVariable, hprev, hgrouped, hnmem]
    | idOrString x => simp [evaluateIfVariable, hprev, hgrouped, hnmem]
    | idVector xs => simp [evaluateIfVariable, hprev, hgrouped, hnmem]

/-- C5 witness: one recursion step from `?y` to `?x`, then the direct
return of the constant 5 computed for `?x`. -/
theorem C5_witness :
    evaluateIfVariable aliasChainContext false 2 aliasY =
      evaluateIfVariable aliasChainContext false 1 aliasX ∧
    evaluateIfVariable aliasChainContext false 1 aliasX =
      .ok (.id (.int 5)) := by
  constructor
  · exact C5_alias_chain_resolution.1 aliasChainContext false 1 aliasY
      aliasX rfl rfl
  · exact C5_alias_chain_resolution.2.1 aliasChainContext false 0 aliasX
      (.id (.int 5)) rfl rfl (fun w h => ExpressionResult.noConfusion h)

/-- C10: on a populated cache slot, `evaluate` of a string or literal
constant returns the cached value without consulting the cancellation
signal (so it never raises the cancellation error, whatever the signal's
state); the cancellation check happens only on the uncached path, after
the vocabulary lookup and the cache installation — so even a cancelled
uncached call leaves the freshly computed value installed — and an
uncancelled uncached call returns its freshly computed value. -/
theorem C10_cache_and_cancellation :
    (∀ (ctx : EvaluationContext) (cached : IdOrString) (agg : Bool)
        (fuel : Nat) (s : String),
        LiteralExpression.evaluate ctx (some cached) agg fuel (.str s) =
          (.ok (.idOrString cached), some cached)) ∧
    (∀ (ctx : EvaluationContext) (cached : IdOrString) (agg : Bool)
        (fuel : Nat) (raw : String),
        LiteralExpression.evaluate ctx (some cached) agg fuel
            (.literal raw) =
          (.ok (.idOrString cached), some cached)) ∧
    (∀ (ctx : EvaluationContext) (agg : Bool) (fuel : Nat) (s : String)
        (result : IdOrString),
        result = (match lookupAssoc ctx.vocab s with
          | some i => .id i
          | none => .str s) →
        (ctx.cancelled = false →
          LiteralExpression.evaluate ctx none agg fuel (.str s) =
            (.ok (.idOrString result), some result)) ∧
        (ctx.cancelled = true →
          LiteralExpression.evaluate ctx none agg fuel (.str s) =
            (.error .cancelled, some result))) := by
  refine ⟨fun ctx cached agg fuel s => rfl,
    fun ctx cached agg fuel raw => rfl, ?_⟩
  intro ctx agg fuel s result hres
  subst hres
  constructor
  · intro hcanc
    simp [LiteralExpression.evaluate, getIdOrString, hcanc]
  · intro hcanc
    simp [LiteralExpression.evaluate, getIdOrString, hcanc]

/-- A context whose vocabulary interns the string "a" and whose
cancellation signal is untriggered. -/
def vocabOffContext : EvaluationContext :=
  { emptyContext with vocab := [("a", .vocab 9)] }

/-- The same context with the cancellation signal triggered. -/
def vocabOnContext : EvaluationContext :=
  { vocabOffContext with cancelled := true }

/-- C10 witness: a cached call under a triggered cancellation signal
still succeeds with the cached value; an uncached uncancelled call
returns the fresh vocabulary result and installs it; an uncached
cancelled call raises the cancellation error with the fresh value
nevertheless installed. -/
theorem C10_witness :
    LiteralExpression.evaluate vocabOnContext (some (.str "c")) false 0
        (.str "a") =
      (.ok (.idOrString (.str "c")), some (.str "c")) ∧
    LiteralExpression.evaluate vocabOffContext none false 0 (.str "a") =
      (.ok (.idOrString (.id (.vocab 9))), some (.id (.vocab 9))) ∧
    LiteralExpression.evaluate vocabOnContext none false 0 (.str "a") =
      (.error .cancelled, some (.id (.vocab 9))) := by
  refine ⟨C10_cache_and_cancellation.1 vocabOnContext (.str "c") false 0 "a",
    ?_, ?_⟩
  · exact (C10_cache_and_cancellation.2.2 vocabOffContext false 0 "a"
      (.id (.vocab 9)) rfl).1 rfl
  · exact (C10_cache_and_cancellation.2.2 vocabOnContext false 0 "a"
      (.id (.vocab 9)) rfl).2 rfl

end QLever
